import Mathlib

/-!
Verification of the storehouse redis-om manager module (src/src/index.ts).

The module is modelled by a shallow embedding: the repository table is an
association list with JavaScript Map semantics (set replaces the value in
place when the key exists, otherwise appends; get returns the first match),
asynchronous effects of the underlying redis client (ping, quit,
createIndex, dropIndex) are passed to the embedded operations as explicit
oracles, and wall-clock readings of Date.now are passed as explicit
natural-number arguments.  Thrown JavaScript values are modelled by the
inductive type Thrown, distinguishing Error instances (message and stack)
from other values (their string conversion), matching the
`error instanceof Error` tests in the source.
-/

deriving instance DecidableEq for Except

namespace StorehouseRedisOM

/-- Schema from redis-om: a declared name (`schemaName`) plus field
descriptors that are opaque to this module. -/
structure Schema where
  schemaName : String
  fields : List (String × String)
deriving DecidableEq, Repr

/-- Options accepted by `createClient`; opaque to this module. -/
structure RedisClientOptions where
  url : Option String
deriving DecidableEq, Repr

/-- Observable state of the underlying redis client: the options it was
created from and its `isOpen` / `isReady` flags. -/
structure RedisClient where
  options : Option RedisClientOptions
  isOpen : Bool
  isReady : Bool
deriving DecidableEq, Repr

/-- Embedding of `createClient(options)`: a client that is not yet open. -/
def createClient (opts : Option RedisClientOptions) : RedisClient :=
  { options := opts, isOpen := false, isReady := false }

/-- Repository from redis-om, as used here: the binding
`new Repository(schema, connection)`. -/
structure Repository where
  schema : Schema
  connection : RedisClient
deriving DecidableEq, Repr

/-- A thrown JavaScript value: either an `Error` (message and stack) or any
other value, kept as its string conversion. -/
inductive Thrown where
  | jsError (message : String) (stack : String)
  | other (str : String)
deriving DecidableEq, Repr

/-- Embedding of `error instanceof Error ? error.message : String(error)`. -/
def Thrown.description : Thrown → String
  | .jsError m _ => m
  | .other s => s

/-- Embedding of `error instanceof Error ? error.stack : String(error)`. -/
def Thrown.trace : Thrown → String
  | .jsError _ s => s
  | .other s => s

/-- Lookup in a JavaScript Map (`Map.prototype.get`): first entry with the
given key, if any. -/
def mapGet {α : Type} (m : List (String × α)) (k : String) : Option α :=
  match m with
  | [] => none
  | p :: rest => if p.1 = k then some p.2 else mapGet rest k

/-- Key-membership test for a JavaScript Map (`Map.prototype.has`). -/
def hasKey {α : Type} (m : List (String × α)) (k : String) : Bool :=
  match m with
  | [] => false
  | p :: rest => if p.1 = k then true else hasKey rest k

/-- Insertion into a JavaScript Map (`Map.prototype.set`): replace the value
in place when the key is present, otherwise append the new entry at the
end, preserving insertion order. -/
def mapSet {α : Type} (m : List (String × α)) (k : String) (v : α) :
    List (String × α) :=
  match m with
  | [] => [(k, v)]
  | p :: rest => if p.1 = k then (k, v) :: rest else p :: mapSet rest k v

/-- Embedding of JavaScript truthiness on strings: `a || b` where the empty
string is falsy. -/
def jsStrOr (a b : String) : String := if a = "" then b else a

/-- Embedding of `a || b` where `a : string | undefined`. -/
def jsOptStrOr (a : Option String) (b : String) : String :=
  match a with
  | some s => jsStrOr s b
  | none => b

/-- The `RedisOMManager` state: its name, the redis client it owns, and the
`#repositories` map from schema name to repository. -/
structure RedisOMManager where
  name : String
  connection : RedisClient
  repositories : List (String × Repository)
deriving DecidableEq, Repr

/-- Embedding of `RedisOMManager.addModel(m)`: stores
`new Repository(m, connection)` under `repositories[m.schemaName]` and
returns the schema that was passed in. -/
def RedisOMManager.addModel (mgr : RedisOMManager) (m : Schema) :
    RedisOMManager × Schema :=
  ({ mgr with
      repositories :=
        mapSet mgr.repositories m.schemaName
          { schema := m, connection := mgr.connection } },
   m)

/-- The generated manager name
`RedisOM ${Date.now()}_${randomBytes(3).toString(hex)}`, with the clock
reading and the random suffix passed in explicitly. -/
def genName (now : Nat) (suffix : String) : String :=
  "RedisOM " ++ toString now ++ "_" ++ suffix

/-- The `config` field of the manager argument. -/
structure ManagerConfig where
  models : Option (List Schema)
  options : Option RedisClientOptions
deriving DecidableEq, Repr

/-- Embedding of `RedisOMManagerArg`. -/
structure RedisOMManagerArg where
  name : Option String
  config : Option ManagerConfig
deriving DecidableEq, Repr

/-- The schemas traversed by `settings.config?.models?.forEach`: the empty
list when either optional level is absent. -/
def RedisOMManagerArg.modelList (s : RedisOMManagerArg) : List Schema :=
  match s.config with
  | none => []
  | some c => c.models.getD []

/-- The options passed to `createClient(settings?.config?.options)`. -/
def RedisOMManagerArg.clientOptions (s : RedisOMManagerArg) :
    Option RedisClientOptions :=
  match s.config with
  | none => none
  | some c => c.options

/-- Embedding of the `RedisOMManager` constructor: resolve the name
(supplied value, else the generated one — JavaScript `||`, so an empty
supplied name also falls back), create the unopened client, start from an
empty repository map and register each schema of the configuration in list
order through `addModel`. -/
def mkRedisOMManager (settings : RedisOMManagerArg) (now : Nat)
    (suffix : String) : RedisOMManager :=
  let init : RedisOMManager :=
    { name := jsOptStrOr settings.name (genName now suffix)
      connection := createClient settings.clientOptions
      repositories := [] }
  settings.modelList.foldl (fun mgr s => (mgr.addModel s).1) init

/-- Embedding of `RedisOMManager.getConnection()`. -/
def RedisOMManager.getConnection (mgr : RedisOMManager) : RedisClient :=
  mgr.connection

/-- Embedding of `RedisOMManager.getModel(name)`: a plain map lookup that
returns `none` (undefined) when the name is not registered. -/
def RedisOMManager.getModel (mgr : RedisOMManager) (name : String) :
    Option Repository :=
  mapGet mgr.repositories name

/-- Embedding of `RedisOMManager.close()`: delegate to the underlying
`quit()`, whose behaviour (acknowledgement or thrown value, plus the
client state after the command) is supplied as an oracle.  Returns the
acknowledgement and the manager with the updated client. -/
def RedisOMManager.close (mgr : RedisOMManager)
    (quit : RedisClient → Except Thrown String × RedisClient) :
    Except Thrown String × RedisOMManager :=
  let r := quit mgr.connection
  (r.1, { mgr with connection := r.2 })

/-- Embedding of `RedisOMManager.closeConnection()`: `return await this.close()`. -/
def RedisOMManager.closeConnection (mgr : RedisOMManager)
    (quit : RedisClient → Except Thrown String × RedisClient) :
    Except Thrown String × RedisOMManager :=
  mgr.close quit

/-- The shared `for (const [_, repository] of this.#repositories.entries())`
loop of `createIndexes` / `dropIndexes`: apply the effect to each
repository in insertion order, stopping at the first thrown value.
Returns the list of repositories on which the effect was invoked, and the
outcome. -/
def indexLoop (repos : List (String × Repository))
    (eff : Repository → Except Thrown Unit) :
    List Repository × Except Thrown Unit :=
  match repos with
  | [] => ([], .ok ())
  | p :: rest =>
    match eff p.2 with
    | .ok _ =>
      let r := indexLoop rest eff
      (p.2 :: r.1, r.2)
    | .error e => ([p.2], .error e)

/-- Embedding of `RedisOMManager.createIndexes()`, with the behaviour of
`repository.createIndex()` supplied as an oracle. -/
def RedisOMManager.createIndexes (mgr : RedisOMManager)
    (createIndex : Repository → Except Thrown Unit) :
    List Repository × Except Thrown Unit :=
  indexLoop mgr.repositories createIndex

/-- Embedding of `RedisOMManager.dropIndexes()`, with the behaviour of
`repository.dropIndex()` supplied as an oracle. -/
def RedisOMManager.dropIndexes (mgr : RedisOMManager)
    (dropIndex : Repository → Except Thrown Unit) :
    List Repository × Except Thrown Unit :=
  indexLoop mgr.repositories dropIndex

/-- The `details` object of `RedisOMHealthCheckResult`; fields that a branch
does not set are `none`. -/
structure HealthDetails where
  name : String
  isOpen : Bool
  isReady : Bool
  pingResponse : Option String
  models : Option (List String)
  latency : Option String
  error : Option String
deriving DecidableEq, Repr

/-- Embedding of `RedisOMHealthCheckResult`: the top-level `latency` is
absent (`none`) exactly when no ping was attempted. -/
structure RedisOMHealthCheckResult where
  healthy : Bool
  message : String
  details : HealthDetails
  latency : Option Nat
  timestamp : Nat
deriving DecidableEq, Repr

/-- The registered model names, `Array.from(this.#repositories.keys())`. -/
def RedisOMManager.modelNames (mgr : RedisOMManager) : List String :=
  mgr.repositories.map Prod.fst

/-- Embedding of `RedisOMManager.healthCheck()`.  `t0` is the `Date.now()`
reading taken at the start (`start` and `timestamp` in the source),
`ping` is the outcome of `this.#connection.ping()` (only consulted when
the connection is open), and `tAfter` is the `Date.now()` reading taken
after the ping settles. -/
def RedisOMManager.healthCheck (mgr : RedisOMManager) (t0 : Nat)
    (ping : Except Thrown String) (tAfter : Nat) : RedisOMHealthCheckResult :=
  let start := t0
  let timestamp := start
  if !mgr.connection.isOpen then
    { healthy := false
      message := "Redis connection is not open"
      details :=
        { name := mgr.name
          isOpen := mgr.connection.isOpen
          isReady := mgr.connection.isReady
          pingResponse := none, models := none, latency := none, error := none }
      latency := none
      timestamp := timestamp }
  else
    match ping with
    | .ok pingResult =>
      let latency := tAfter - start
      { healthy := true
        message := "Redis connection is healthy"
        details :=
          { name := mgr.name
            isOpen := mgr.connection.isOpen
            isReady := mgr.connection.isReady
            pingResponse := some pingResult
            models := some mgr.modelNames
            latency := some (toString latency ++ "ms")
            error := none }
        latency := some latency
        timestamp := timestamp }
    | .error e =>
      { healthy := false
        message := "Redis health check failed: " ++ e.description
        details :=
          { name := mgr.name
            isOpen := mgr.connection.isOpen
            isReady := mgr.connection.isReady
            pingResponse := none, models := none, latency := none
            error := some e.trace }
        latency := some (tAfter - start)
        timestamp := timestamp }

/-- An entry of the external storehouse registry: either a manager of this
kind of this module or a manager of some other kind (the
`instanceof RedisOMManager` test distinguishes them). -/
inductive RegistryEntry where
  | redisOM (mgr : RedisOMManager)
  | otherKind (tag : String)
deriving DecidableEq, Repr

/-- Modelled from the spec: the registry collaborator of the core package is
not part of this repository; per the spec it is consumed only through a
lookup capability (managers by name, a configured `defaultManager` name). -/
structure Registry where
  managers : List (String × RegistryEntry)
  defaultManager : String
deriving DecidableEq, Repr

/-- Lookup of a registry entry by exact name. -/
def Registry.lookupEntry (reg : Registry) (k : String) : Option RegistryEntry :=
  mapGet reg.managers k

/-- Modelled from the spec: `registry.getManager(name?)` of the core package
resolves the explicit name, else the configured default, and returns the
entry registered under the resolved name, if any. -/
def Registry.getManager (reg : Registry) (managerName : Option String) :
    Option RegistryEntry :=
  reg.lookupEntry (jsOptStrOr managerName reg.defaultManager)

/-- Modelled from the spec: `registry.getModel(managerName, modelName?)` of
the core package — a single name resolves a model from the default
manager, two names resolve a named model from a named manager; an absent
or non-redis-om manager yields no model. -/
def Registry.getModel (reg : Registry) (managerName : String)
    (modelName : Option String) : Option Repository :=
  match modelName with
  | none =>
    match reg.lookupEntry reg.defaultManager with
    | some (.redisOM m) => mapGet m.repositories managerName
    | _ => none
  | some mn =>
    match reg.lookupEntry managerName with
    | some (.redisOM m) => mapGet m.repositories mn
    | _ => none

/-- The typed errors thrown by the free helper functions
(`ManagerNotFoundError`, `ModelNotFoundError`, `InvalidManagerConfigError`
of the core package), with the arguments the source passes to their
constructors. -/
inductive StorehouseError where
  | managerNotFound (name : String)
  | modelNotFound (modelName : String) (managerName : Option String)
  | invalidManagerConfig (message : String)
deriving DecidableEq, Repr

/-- Embedding of the free function `getManager(registry, managerName?)`:
throw `ManagerNotFoundError(managerName || registry.defaultManager)` when
the registry resolves no entry, throw `InvalidManagerConfigError` when
the entry is not an instance of `RedisOMManager`, else return it. -/
def getManager (reg : Registry) (managerName : Option String) :
    Except StorehouseError RedisOMManager :=
  match reg.getManager managerName with
  | none =>
    .error (.managerNotFound (jsOptStrOr managerName reg.defaultManager))
  | some (.otherKind _) =>
    .error (.invalidManagerConfig
      ("Manager \"" ++ jsOptStrOr managerName reg.defaultManager ++
        "\" is not instance of RedisOMManager"))
  | some (.redisOM m) => .ok m

/-- Embedding of the free function `getModel(registry, managerName, modelName?)`:
throw `ModelNotFoundError(modelName || managerName, modelName ? managerName : undefined)`
when the registry resolves no model, else return it. -/
def getModel (reg : Registry) (managerName : String)
    (modelName : Option String) : Except StorehouseError Repository :=
  match reg.getModel managerName modelName with
  | some m => .ok m
  | none =>
    .error (.modelNotFound (jsOptStrOr modelName managerName)
      (match modelName with
       | some mn => if mn = "" then none else some managerName
       | none => none))

/-! ### Lemmas about the JavaScript Map model -/

theorem hasKey_iff_mem {α : Type} (m : List (String × α)) (k : String) :
    hasKey m k = true ↔ k ∈ m.map Prod.fst := by
  induction m with
  | nil => simp [hasKey]
  | cons p rest ih =>
    by_cases h : p.1 = k
    · simp [hasKey, h]
    · simp [hasKey, h, ih, Ne.symm h]

theorem hasKey_false_iff_not_mem {α : Type} (m : List (String × α))
    (k : String) : hasKey m k = false ↔ k ∉ m.map Prod.fst := by
  rw [← hasKey_iff_mem]
  cases hasKey m k <;> simp

theorem mapGet_mapSet_self {α : Type} (m : List (String × α)) (k : String)
    (v : α) : mapGet (mapSet m k v) k = some v := by
  induction m with
  | nil => simp [mapSet, mapGet]
  | cons p rest ih =>
    by_cases h : p.1 = k
    · simp [mapSet, h, mapGet]
    · simp [mapSet, h, mapGet, ih]

theorem hasKey_mapSet_self {α : Type} (m : List (String × α)) (k : String)
    (v : α) : hasKey (mapSet m k v) k = true := by
  induction m with
  | nil => simp [mapSet, hasKey]
  | cons p rest ih =>
    by_cases h : p.1 = k
    · simp [mapSet, h, hasKey]
    · simp [mapSet, h, hasKey, ih]

theorem mapSet_keys_of_hasKey {α : Type} (m : List (String × α)) (k : String)
    (v : α) (h : hasKey m k = true) :
    (mapSet m k v).map Prod.fst = m.map Prod.fst := by
  induction m with
  | nil => simp [hasKey] at h
  | cons p rest ih =>
    by_cases hp : p.1 = k
    · simp [mapSet, hp]
    · simp only [hasKey, if_neg hp] at h
      simp [mapSet, hp, ih h]

theorem mapSet_keys_of_not_hasKey {α : Type} (m : List (String × α))
    (k : String) (v : α) (h : hasKey m k = false) :
    (mapSet m k v).map Prod.fst = m.map Prod.fst ++ [k] := by
  induction m with
  | nil => simp [mapSet]
  | cons p rest ih =>
    by_cases hp : p.1 = k
    · simp [hasKey, hp] at h
    · simp only [hasKey, if_neg hp] at h
      simp [mapSet, hp, ih h]

theorem mapSet_keys_nodup {α : Type} (m : List (String × α)) (k : String)
    (v : α) (h : (m.map Prod.fst).Nodup) :
    ((mapSet m k v).map Prod.fst).Nodup := by
  cases hk : hasKey m k
  · rw [mapSet_keys_of_not_hasKey m k v hk]
    have hmem : k ∉ m.map Prod.fst := (hasKey_false_iff_not_mem m k).1 hk
    simp [List.nodup_append, h, hmem]
  · rw [mapSet_keys_of_hasKey m k v hk]
    exact h

theorem mapGet_mem {α : Type} (m : List (String × α)) (k : String) (v : α)
    (h : mapGet m k = some v) : (k, v) ∈ m := by
  induction m with
  | nil => simp [mapGet] at h
  | cons p rest ih =>
    by_cases hp : p.1 = k
    · simp only [mapGet, if_pos hp, Option.some.injEq] at h
      have hpq : p = (k, v) := by
        cases p with
        | mk a b =>
          simp only at hp h
          simp [hp, h]
      rw [← hpq]
      exact List.mem_cons_self p rest
    · simp only [mapGet, if_neg hp] at h
      exact List.mem_cons_of_mem p (ih h)

theorem mem_mapGet {α : Type} (m : List (String × α)) (k : String) (v : α)
    (hnd : (m.map Prod.fst).Nodup) (h : (k, v) ∈ m) :
    mapGet m k = some v := by
  induction m with
  | nil => simp at h
  | cons p rest ih =>
    have hnd2 : (p.1 :: rest.map Prod.fst).Nodup := by
      rw [List.map_cons] at hnd
      exact hnd
    have hnc := List.nodup_cons.1 hnd2
    rcases List.mem_cons.1 h with hEq | hMem
    · subst hEq
      simp [mapGet]
    · have hk : p.1 ≠ k := by
        intro hEq
        apply hnc.1
        rw [hEq]
        exact List.mem_map_of_mem Prod.fst hMem
      simp [mapGet, hk, ih hnc.2 hMem]

theorem mapSet_length_of_hasKey {α : Type} (m : List (String × α))
    (k : String) (v : α) (h : hasKey m k = true) :
    (mapSet m k v).length = m.length := by
  induction m with
  | nil => simp [hasKey] at h
  | cons p rest ih =>
    by_cases hp : p.1 = k
    · simp [mapSet, hp]
    · simp only [hasKey, if_neg hp] at h
      simp [mapSet, hp, ih h]

theorem mapGet_eq_none_iff {α : Type} (m : List (String × α)) (k : String) :
    mapGet m k = none ↔ ∀ p ∈ m, p.1 ≠ k := by
  induction m with
  | nil => simp [mapGet]
  | cons p rest ih =>
    by_cases hp : p.1 = k
    · simp [mapGet, hp]
    · simp [mapGet, hp, ih]

/-! ### Lemmas about construction and the index loops -/

theorem addModel_connection (mgr : RedisOMManager) (s : Schema) :
    (mgr.addModel s).1.connection = mgr.connection := rfl

theorem foldl_addModel_keys (schemas : List Schema) (mgr : RedisOMManager)
    (hd : ∀ s ∈ schemas, hasKey mgr.repositories s.schemaName = false)
    (hn : (schemas.map Schema.schemaName).Nodup) :
    (schemas.foldl (fun m s => (m.addModel s).1) mgr).repositories.map Prod.fst
      = mgr.repositories.map Prod.fst ++ schemas.map Schema.schemaName := by
  induction schemas generalizing mgr with
  | nil => simp
  | cons s rest ih =>
    have hn2 : (s.schemaName :: rest.map Schema.schemaName).Nodup := by
      rw [List.map_cons] at hn
      exact hn
    have hnc := List.nodup_cons.1 hn2
    have hs : hasKey mgr.repositories s.schemaName = false :=
      hd s (List.mem_cons_self s rest)
    have hkeys : (mgr.addModel s).1.repositories.map Prod.fst
        = mgr.repositories.map Prod.fst ++ [s.schemaName] :=
      mapSet_keys_of_not_hasKey mgr.repositories s.schemaName _ hs
    have hd2 : ∀ q ∈ rest,
        hasKey (mgr.addModel s).1.repositories q.schemaName = false := by
      intro q hq
      rw [hasKey_false_iff_not_mem, hkeys]
      have h1 : q.schemaName ∉ mgr.repositories.map Prod.fst :=
        (hasKey_false_iff_not_mem _ _).1 (hd q (List.mem_cons_of_mem s hq))
      have h2 : q.schemaName ≠ s.schemaName := by
        intro hEq
        apply hnc.1
        rw [← hEq]
        exact List.mem_map_of_mem Schema.schemaName hq
      simp [h1, h2]
    rw [List.foldl_cons, ih ((mgr.addModel s).1) hd2 hnc.2, hkeys]
    simp

theorem indexLoop_all_ok (repos : List (String × Repository))
    (eff : Repository → Except Thrown Unit)
    (h : ∀ p ∈ repos, eff p.2 = .ok ()) :
    indexLoop repos eff = (repos.map Prod.snd, .ok ()) := by
  induction repos with
  | nil => rfl
  | cons p rest ih =>
    have hp : eff p.2 = .ok () := h p (List.mem_cons_self p rest)
    have hrest := ih (fun q hq => h q (List.mem_cons_of_mem p hq))
    simp [indexLoop, hp, hrest]

theorem indexLoop_first_error (pre : List (String × Repository)) (k : String)
    (r : Repository) (post : List (String × Repository))
    (eff : Repository → Except Thrown Unit) (e : Thrown)
    (hpre : ∀ p ∈ pre, eff p.2 = .ok ()) (hr : eff r = .error e) :
    indexLoop (pre ++ (k, r) :: post) eff = (pre.map Prod.snd ++ [r], .error e) := by
  induction pre with
  | nil => simp [indexLoop, hr]
  | cons p rest ih =>
    have hp : eff p.2 = .ok () := hpre p (List.mem_cons_self p rest)
    have hrest := ih (fun q hq => hpre q (List.mem_cons_of_mem p hq))
    simp [indexLoop, hp, hrest]

/-! ### Concrete fixtures used by witnesses and counterexamples -/

def wSchemaAlbum : Schema :=
  { schemaName := "album", fields := [("title", "text"), ("year", "number")] }

def wSchemaStudio : Schema :=
  { schemaName := "studio", fields := [("city", "string")] }

def wClientOpen : RedisClient :=
  { options := none, isOpen := true, isReady := true }

def wClientClosed : RedisClient :=
  { options := none, isOpen := false, isReady := false }

def wRepoAlbum : Repository :=
  { schema := wSchemaAlbum, connection := wClientOpen }

def wRepoStudio : Repository :=
  { schema := wSchemaStudio, connection := wClientOpen }

def wMgrOpen : RedisOMManager :=
  { name := "m1", connection := wClientOpen
    repositories := [("album", wRepoAlbum), ("studio", wRepoStudio)] }

def wMgrClosed : RedisOMManager :=
  { name := "m2", connection := wClientClosed, repositories := [] }

def wReg : Registry :=
  { managers := [("m1", .redisOM wMgrOpen), ("bad", .otherKind "mongoose")]
    defaultManager := "m1" }

def wSchemaDupA : Schema :=
  { schemaName := "a", fields := [("x", "string")] }

def wSchemaDupB : Schema :=
  { schemaName := "a", fields := [("y", "number")] }

def wCfgDup : RedisOMManagerArg :=
  { name := some "dup"
    config := some { models := some [wSchemaDupA, wSchemaDupB], options := none } }

def wCfgTwo : RedisOMManagerArg :=
  { name := none
    config := some { models := some [wSchemaAlbum, wSchemaStudio], options := none } }

def wEffOk : Repository → Except Thrown Unit := fun _ => .ok ()

def wEffFailStudio : Repository → Except Thrown Unit := fun r =>
  if r.schema.schemaName = "studio" then .error (.other "boom") else .ok ()

/-! ### Claim theorems -/

/-- Claim C1: on a manager whose connection is open and whose ping succeeds,
`healthCheck()` returns `healthy: true`, `details.models` equal to the
exact list of registered model names, `details.latency` of the form
`<n>ms`, top-level `latency` equal to the `Date.now()` reading at return
minus the start reading `t0` (exact under a monotone clock,
`t0 ≤ tAfter`), and `timestamp = t0`. -/
theorem healthCheck_open_ping_ok (mgr : RedisOMManager) (t0 tAfter : Nat)
    (r : String) (hopen : mgr.connection.isOpen = true) (hle : t0 ≤ tAfter) :
    mgr.healthCheck t0 (.ok r) tAfter =
      { healthy := true
        message := "Redis connection is healthy"
        details :=
          { name := mgr.name
            isOpen := true
            isReady := mgr.connection.isReady
            pingResponse := some r
            models := some mgr.modelNames
            latency := some (toString (tAfter - t0) ++ "ms")
            error := none }
        latency := some (tAfter - t0)
        timestamp := t0 }
    ∧ t0 + (tAfter - t0) = tAfter := by
  constructor
  · simp [RedisOMManager.healthCheck, hopen]
  · omega

/-- Claim C1 witness: a concrete open manager with registered models
`album` and `studio`, pinged successfully between clock readings 100 and
107. -/
theorem healthCheck_open_ping_ok_witness :
    wMgrOpen.healthCheck 100 (.ok "PONG") 107 =
      { healthy := true
        message := "Redis connection is healthy"
        details :=
          { name := "m1", isOpen := true, isReady := true
            pingResponse := some "PONG"
            models := some ["album", "studio"]
            latency := some "7ms", error := none }
        latency := some 7
        timestamp := 100 } := by
  have h := (healthCheck_open_ping_ok wMgrOpen 100 107 "PONG" rfl (by decide)).1
  exact h.trans (by decide)

/-- Claim C2: on a manager whose connection reports not-open,
`healthCheck()` returns `healthy: false`, the message stating that the
connection is not open (the source string is
`Redis connection is not open`), details holding the manager name and the
open/ready flags, `timestamp = t0` and no `latency` field; the result
does not depend on the ping oracle or on the later clock reading, which
renders that the ping is never invoked on this path. -/
theorem healthCheck_not_open (mgr : RedisOMManager) (t0 : Nat)
    (ping : Except Thrown String) (tAfter : Nat)
    (h : mgr.connection.isOpen = false) :
    mgr.healthCheck t0 ping tAfter =
      { healthy := false
        message := "Redis connection is not open"
        details :=
          { name := mgr.name
            isOpen := false
            isReady := mgr.connection.isReady
            pingResponse := none, models := none, latency := none, error := none }
        latency := none
        timestamp := t0 }
    ∧ ∀ (ping2 : Except Thrown String) (t2 : Nat),
        mgr.healthCheck t0 ping tAfter = mgr.healthCheck t0 ping2 t2 := by
  constructor
  · simp [RedisOMManager.healthCheck, h]
  · intro ping2 t2
    simp [RedisOMManager.healthCheck, h]

/-- Claim C2 witness: a concrete closed manager checked at clock reading 50;
the result is the same whether the ping oracle would have thrown or
answered, and carries no latency. -/
theorem healthCheck_not_open_witness :
    (wMgrClosed.healthCheck 50 (.error (.other "boom")) 60).latency = none
    ∧ wMgrClosed.healthCheck 50 (.error (.other "boom")) 60
        = wMgrClosed.healthCheck 50 (.ok "PONG") 99 := by
  have h := healthCheck_not_open wMgrClosed 50 (.error (.other "boom")) 60 rfl
  exact ⟨by rw [h.1], h.2 (.ok "PONG") 99⟩

/-- Claim C3: `healthCheck()` is a total function into results — a thrown
ping value is captured, never propagated — and on the ping-failure path
the result has `healthy: false`, a message embedding the thrown
description, `details.error` holding its trace, `latency` equal to the
return-time reading minus `t0` (exact under a monotone clock), and
`timestamp = t0`. -/
theorem healthCheck_ping_error (mgr : RedisOMManager) (t0 tAfter : Nat)
    (e : Thrown) (hopen : mgr.connection.isOpen = true) (hle : t0 ≤ tAfter) :
    mgr.healthCheck t0 (.error e) tAfter =
      { healthy := false
        message := "Redis health check failed: " ++ e.description
        details :=
          { name := mgr.name
            isOpen := true
            isReady := mgr.connection.isReady
            pingResponse := none, models := none, latency := none
            error := some e.trace }
        latency := some (tAfter - t0)
        timestamp := t0 }
    ∧ t0 + (tAfter - t0) = tAfter := by
  constructor
  · simp [RedisOMManager.healthCheck, hopen]
  · omega

/-- Claim C3 witness: a concrete open manager whose ping throws an `Error`
with message `ECONNRESET` between clock readings 100 and 103. -/
theorem healthCheck_ping_error_witness :
    wMgrOpen.healthCheck 100 (.error (.jsError "ECONNRESET" "trace0")) 103 =
      { healthy := false
        message := "Redis health check failed: ECONNRESET"
        details :=
          { name := "m1", isOpen := true, isReady := true
            pingResponse := none, models := none, latency := none
            error := some "trace0" }
        latency := some 3
        timestamp := 100 } := by
  have h := (healthCheck_ping_error wMgrOpen 100 103
    (.jsError "ECONNRESET" "trace0") rfl (by decide)).1
  exact h.trans (by decide)

/-- Claim C4 counterexample: a configuration with two schemas that share the
declared name `a` yields a repositories table with one entry, not two —
the Map `set` of the second registration overwrites the first, so
"exactly N entries for every configuration with N schemas" fails. -/
theorem construct_counterexample :
    ¬ ((mkRedisOMManager wCfgDup 0 "ab").repositories.length = 2) := by
  decide

/-- Claim C4 (amended): for every configuration whose schemas have pairwise
distinct declared names, a freshly constructed manager has exactly N
repository entries, keyed by the declared schema names in list order;
and the repositories are built by folding model registration (`addModel`)
over the schema list in order, starting from the empty table. -/
theorem construct_registers_all (settings : RedisOMManagerArg) (now : Nat)
    (suffix : String)
    (h : (settings.modelList.map Schema.schemaName).Nodup) :
    (mkRedisOMManager settings now suffix).repositories.map Prod.fst
        = settings.modelList.map Schema.schemaName
    ∧ (mkRedisOMManager settings now suffix).repositories.length
        = settings.modelList.length
    ∧ mkRedisOMManager settings now suffix
        = settings.modelList.foldl (fun mgr s => (mgr.addModel s).1)
            { name := jsOptStrOr settings.name (genName now suffix)
              connection := createClient settings.clientOptions
              repositories := [] } := by
  have hkeys := foldl_addModel_keys settings.modelList
    { name := jsOptStrOr settings.name (genName now suffix)
      connection := createClient settings.clientOptions
      repositories := [] }
    (fun s _ => rfl) h
  have h1 : (mkRedisOMManager settings now suffix).repositories.map Prod.fst
      = settings.modelList.map Schema.schemaName := by
    simpa [mkRedisOMManager] using hkeys
  refine ⟨h1, ?_, rfl⟩
  calc (mkRedisOMManager settings now suffix).repositories.length
      = ((mkRedisOMManager settings now suffix).repositories.map Prod.fst).length := by
        simp
    _ = (settings.modelList.map Schema.schemaName).length := by rw [h1]
    _ = settings.modelList.length := by simp

/-- Claim C4 witness: a configuration with the two distinct schemas `album`
and `studio` yields a table with exactly those two keys, in order. -/
theorem construct_registers_all_witness :
    (mkRedisOMManager wCfgTwo 1700000000000 "a1b2c3").repositories.map Prod.fst
        = ["album", "studio"]
    ∧ (mkRedisOMManager wCfgTwo 1700000000000 "a1b2c3").repositories.length = 2 := by
  have h := construct_registers_all wCfgTwo 1700000000000 "a1b2c3" (by decide)
  exact ⟨h.1.trans (by decide), h.2.1.trans (by decide)⟩

/-- Claim C5: model registration is last-write-wins — starting from any
manager whose table has no duplicate keys, registering two schemas with
the same declared name leaves exactly one entry under that name, holding
the repository built from the second schema and the connection of the manager;
no error is possible (`addModel` is total) and `addModel` returns the
schema it was given. -/
theorem addModel_last_write_wins (mgr : RedisOMManager) (s1 s2 : Schema)
    (hname : s1.schemaName = s2.schemaName)
    (hnd : (mgr.repositories.map Prod.fst).Nodup) :
    ((((mgr.addModel s1).1.addModel s2).1.repositories.map Prod.fst).count
        s2.schemaName = 1)
    ∧ mapGet (((mgr.addModel s1).1.addModel s2).1.repositories) s2.schemaName
        = some { schema := s2, connection := mgr.connection }
    ∧ (((mgr.addModel s1).1.addModel s2).1.repositories.length
        = (mgr.addModel s1).1.repositories.length)
    ∧ ∀ (m : RedisOMManager) (s : Schema), (m.addModel s).2 = s := by
  have hrepos1 : (mgr.addModel s1).1.repositories
      = mapSet mgr.repositories s1.schemaName
          { schema := s1, connection := mgr.connection } := rfl
  have hrepos2 : ((mgr.addModel s1).1.addModel s2).1.repositories
      = mapSet (mgr.addModel s1).1.repositories s2.schemaName
          { schema := s2, connection := mgr.connection } := rfl
  have hnd1 : ((mgr.addModel s1).1.repositories.map Prod.fst).Nodup := by
    rw [hrepos1]
    exact mapSet_keys_nodup _ _ _ hnd
  have hnd2 : (((mgr.addModel s1).1.addModel s2).1.repositories.map Prod.fst).Nodup := by
    rw [hrepos2]
    exact mapSet_keys_nodup _ _ _ hnd1
  have hmem : s2.schemaName
      ∈ ((mgr.addModel s1).1.addModel s2).1.repositories.map Prod.fst := by
    rw [← hasKey_iff_mem, hrepos2]
    exact hasKey_mapSet_self _ _ _
  refine ⟨List.count_eq_one_of_mem hnd2 hmem, ?_, ?_, fun m s => rfl⟩
  · rw [hrepos2]
    exact mapGet_mapSet_self _ _ _
  · rw [hrepos2]
    apply mapSet_length_of_hasKey
    rw [hrepos1, ← hname]
    exact hasKey_mapSet_self _ _ _

/-- Claim C5 witness: registering the two concrete schemas named `a` on the
manager already holding `album` and `studio` leaves a single `a` entry
holding the repository of the second schema. -/
theorem addModel_last_write_wins_witness :
    ((((wMgrOpen.addModel wSchemaDupA).1.addModel wSchemaDupB).1.repositories.map
        Prod.fst).count "a" = 1)
    ∧ mapGet (((wMgrOpen.addModel wSchemaDupA).1.addModel
          wSchemaDupB).1.repositories) "a"
        = some { schema := wSchemaDupB, connection := wClientOpen } := by
  have h := addModel_last_write_wins wMgrOpen wSchemaDupA wSchemaDupB rfl (by decide)
  exact ⟨h.1, h.2.1.trans (by decide)⟩

/-- Claim C9: the manager-level `getModel(name)` is a total synchronous
lookup — when the table (whose keys are unique) holds a repository under
the name it is returned, and otherwise the explicit absence indicator
(`none`, i.e. undefined) is returned; the manager itself is not touched. -/
theorem manager_getModel_total (mgr : RedisOMManager) (name : String)
    (hnd : (mgr.repositories.map Prod.fst).Nodup) :
    (∀ r : Repository, mgr.getModel name = some r ↔ (name, r) ∈ mgr.repositories)
    ∧ (mgr.getModel name = none ↔ ∀ p ∈ mgr.repositories, p.1 ≠ name) := by
  refine ⟨fun r => ⟨fun h => mapGet_mem _ _ _ h,
    fun h => mem_mapGet _ _ _ hnd h⟩, ?_⟩
  exact mapGet_eq_none_iff mgr.repositories name

/-- Claim C9 witness: on the concrete manager, a registered name returns its
repository and an unregistered name returns the absence indicator. -/
theorem manager_getModel_total_witness :
    wMgrOpen.getModel "album" = some wRepoAlbum
    ∧ wMgrOpen.getModel "nosuch" = none := by
  have h1 := manager_getModel_total wMgrOpen "album" (by decide)
  have h2 := manager_getModel_total wMgrOpen "nosuch" (by decide)
  exact ⟨(h1.1 wRepoAlbum).mpr (by decide), h2.2.mpr (by decide)⟩

/-- Claim C10: `closeConnection()` delegates to `close()`: for every manager
and every behaviour of the underlying quit command of the client, both calls
produce the same acknowledgement (or thrown value) and the same resulting
manager state. -/
theorem closeConnection_eq_close (mgr : RedisOMManager)
    (quit : RedisClient → Except Thrown String × RedisClient) :
    mgr.closeConnection quit = mgr.close quit := rfl

/-- Claim C6: the free `getManager(registry, name?)` throws
`ManagerNotFoundError` carrying the resolved name (the explicit name or
the configured default of the registry) exactly when the registry has no entry
under that resolved name; it throws `InvalidManagerConfigError` when the
resolved entry is not a `RedisOMManager`; otherwise it returns the
manager. -/
theorem getManager_spec (reg : Registry) (name : Option String) :
    (getManager reg name
        = .error (.managerNotFound (jsOptStrOr name reg.defaultManager))
      ↔ reg.lookupEntry (jsOptStrOr name reg.defaultManager) = none)
    ∧ (∀ t, reg.lookupEntry (jsOptStrOr name reg.defaultManager)
          = some (.otherKind t) →
        getManager reg name = .error (.invalidManagerConfig
          ("Manager \"" ++ jsOptStrOr name reg.defaultManager ++
            "\" is not instance of RedisOMManager")))
    ∧ (∀ m, reg.lookupEntry (jsOptStrOr name reg.defaultManager)
          = some (.redisOM m) →
        getManager reg name = .ok m) := by
  refine ⟨⟨fun h => ?_, fun h => ?_⟩, fun t ht => ?_, fun m hm => ?_⟩
  · cases hl : reg.lookupEntry (jsOptStrOr name reg.defaultManager) with
    | none => rfl
    | some e =>
      cases e <;> simp [getManager, Registry.getManager, hl] at h
  · simp [getManager, Registry.getManager, h]
  · simp [getManager, Registry.getManager, ht]
  · simp [getManager, Registry.getManager, hm]

/-- Claim C6 witness: on the concrete registry, an unknown explicit name
throws `ManagerNotFoundError` with that name, the entry of another kind
throws `InvalidManagerConfigError`, and the omitted name resolves the
default manager. -/
theorem getManager_spec_witness :
    getManager wReg (some "nosuch") = .error (.managerNotFound "nosuch")
    ∧ getManager wReg (some "bad") = .error (.invalidManagerConfig
        "Manager \"bad\" is not instance of RedisOMManager")
    ∧ getManager wReg none = .ok wMgrOpen := by
  have h1 := (getManager_spec wReg (some "nosuch")).1.mpr (by decide)
  have h2 := (getManager_spec wReg (some "bad")).2.1 "mongoose" (by decide)
  have h3 := (getManager_spec wReg none).2.2 wMgrOpen (by decide)
  exact ⟨h1.trans (by decide), h2.trans (by decide), h3⟩

/-- Claim C7: the free `getModel` has two call shapes — one name resolves a
model from the default manager, two names resolve a named model from a
named manager — and it throws `ModelNotFoundError` carrying the model
name and, in the two-name shape, the manager name, exactly when the
registry resolves no repository under that model name; otherwise it
returns the repository.  The two-name shape is stated for a non-empty
model name, matching its JavaScript truthiness test. -/
theorem getModel_spec (reg : Registry) (a b : String) (hb : b ≠ "") :
    (getModel reg a (some b) = .error (.modelNotFound b (some a))
      ↔ reg.getModel a (some b) = none)
    ∧ (getModel reg a none = .error (.modelNotFound a none)
      ↔ reg.getModel a none = none)
    ∧ (∀ r, reg.getModel a (some b) = some r →
        getModel reg a (some b) = .ok r)
    ∧ (∀ r, reg.getModel a none = some r →
        getModel reg a none = .ok r) := by
  refine ⟨⟨fun h => ?_, fun h => ?_⟩, ⟨fun h => ?_, fun h => ?_⟩,
    fun r hr => ?_, fun r hr => ?_⟩
  · cases hm : reg.getModel a (some b) with
    | none => rfl
    | some r => simp [getModel, hm] at h
  · simp [getModel, h, jsOptStrOr, jsStrOr, hb]
  · cases hm : reg.getModel a none with
    | none => rfl
    | some r => simp [getModel, hm] at h
  · simp [getModel, h, jsOptStrOr]
  · simp [getModel, hr]
  · simp [getModel, hr]

/-- Claim C7 witness: on the concrete registry, the two-name shape returns
the registered `album` repository of manager `m1` and throws
`ModelNotFoundError("nosuch", "m1")` for an unregistered name; the
one-name shape resolves `studio` from the default manager. -/
theorem getModel_spec_witness :
    getModel wReg "m1" (some "nosuch")
        = .error (.modelNotFound "nosuch" (some "m1"))
    ∧ getModel wReg "m1" (some "album") = .ok wRepoAlbum
    ∧ getModel wReg "studio" none = .ok wRepoStudio := by
  have h1 := (getModel_spec wReg "m1" "nosuch" (by decide)).1.mpr (by decide)
  have h2 := (getModel_spec wReg "m1" "album" (by decide)).2.2.1
    wRepoAlbum (by decide)
  have h3 := (getModel_spec wReg "studio" "x" (by decide)).2.2.2
    wRepoStudio (by decide)
  exact ⟨h1, h2, h3⟩

/-- Claim C8: `createIndexes()` and `dropIndexes()` apply the index
operation to every registered repository in insertion order when every
call succeeds; the first thrown value aborts the loop — the repositories
before the failing one are exactly the ones operated on (and are not
revisited or undone) and the thrown value propagates as the outcome; on a
manager with an empty table both are no-ops that succeed. -/
theorem indexes_spec (mgr : RedisOMManager)
    (ci di : Repository → Except Thrown Unit) :
    ((∀ p ∈ mgr.repositories, ci p.2 = .ok ()) →
        mgr.createIndexes ci = (mgr.repositories.map Prod.snd, .ok ()))
    ∧ (∀ (pre : List (String × Repository)) (k : String) (r : Repository)
          (post : List (String × Repository)) (e : Thrown),
        mgr.repositories = pre ++ (k, r) :: post →
        (∀ p ∈ pre, ci p.2 = .ok ()) → ci r = .error e →
        mgr.createIndexes ci = (pre.map Prod.snd ++ [r], .error e))
    ∧ ((∀ p ∈ mgr.repositories, di p.2 = .ok ()) →
        mgr.dropIndexes di = (mgr.repositories.map Prod.snd, .ok ()))
    ∧ (∀ (pre : List (String × Repository)) (k : String) (r : Repository)
          (post : List (String × Repository)) (e : Thrown),
        mgr.repositories = pre ++ (k, r) :: post →
        (∀ p ∈ pre, di p.2 = .ok ()) → di r = .error e →
        mgr.dropIndexes di = (pre.map Prod.snd ++ [r], .error e))
    ∧ (mgr.repositories = [] →
        mgr.createIndexes ci = ([], .ok ())
        ∧ mgr.dropIndexes di = ([], .ok ())) := by
  refine ⟨fun h => indexLoop_all_ok _ _ h,
    fun pre k r post e hsplit hpre hr => ?_,
    fun h => indexLoop_all_ok _ _ h,
    fun pre k r post e hsplit hpre hr => ?_,
    fun h => ?_⟩
  · unfold RedisOMManager.createIndexes
    rw [hsplit]
    exact indexLoop_first_error pre k r post ci e hpre hr
  · unfold RedisOMManager.dropIndexes
    rw [hsplit]
    exact indexLoop_first_error pre k r post di e hpre hr
  · unfold RedisOMManager.createIndexes RedisOMManager.dropIndexes
    rw [h]
    exact ⟨rfl, rfl⟩

/-- Claim C8 witness: on the concrete two-model manager, `createIndexes`
with an always-succeeding oracle visits both repositories in insertion
order and succeeds; `dropIndexes` with an oracle that throws on the
`studio` repository performs the `album` drop, attempts `studio`, and
propagates the thrown value; on the empty manager both are no-ops. -/
theorem indexes_spec_witness :
    wMgrOpen.createIndexes wEffOk = ([wRepoAlbum, wRepoStudio], .ok ())
    ∧ wMgrOpen.dropIndexes wEffFailStudio
        = ([wRepoAlbum, wRepoStudio], .error (.other "boom"))
    ∧ wMgrClosed.createIndexes wEffOk = ([], .ok ()) := by
  have h := indexes_spec wMgrOpen wEffOk wEffFailStudio
  have h1 := h.1 (by decide)
  have h2 := h.2.2.2.1 [("album", wRepoAlbum)] "studio" wRepoStudio []
    (.other "boom") (by decide) (by decide) (by decide)
  have h3 := (indexes_spec wMgrClosed wEffOk wEffFailStudio).2.2.2.2 rfl
  exact ⟨h1.trans (by decide), h2.trans (by decide), h3.1⟩

end StorehouseRedisOM
